import Mathlib

set_option maxRecDepth 40000

/-!
Verification development for a 2D Delaunay triangulation engine
(Guibas–Stolfi divide-and-conquer over a quad-edge mesh).

The Rust sources are shallowly embedded:

* `robust_float.rs` — points, the robust predicates, sorting and
  near-duplicate removal.  `f64` coordinates are modelled as `ℚ`; every
  concrete input used in a theorem below consists of small dyadic values
  on which binary64 arithmetic is exact, so the `ℚ` model agrees with the
  `f64` computation there.  The `robust` crate guarantees that the sign
  of `orient2d`/`incircle` equals the sign of the exact real determinant,
  so the predicates are embedded as exact determinant sign tests.
* `edge.rs` — the quad-edge arena (`id_arena::Arena` is a growable vector
  with index identifiers, modelled as a `List QuadEdge`), `EdgeRef`, the
  rotation operators, `splice`, `connect`, `delete_edge`.
* `gns_delaunay.rs` — `compute_delaunay` and `triangulate`.

Rust panics (`panic!`, `unwrap`, out-of-range indexing, `usize`
underflow) are modelled with `Except String`.
-/

namespace Delaunay

/-! ### Points and robust predicates (`robust_float.rs`) -/

/-- `Point2` from `robust_float.rs`; `f64` coordinates modelled as `ℚ`. -/
structure Point2 where
  x : ℚ
  y : ℚ
deriving DecidableEq, Repr

/-- `EPSILON = f64::EPSILON * 2` where `f64::EPSILON = 2⁻⁵²`. -/
def EPSILON : ℚ := 2 / 2 ^ 52

/-- `nearly_equals` from `robust_float.rs`:
`(a.x - b.x).abs() <= EPSILON && (a.y - b.y).abs() <= EPSILON`. -/
def nearly_equals (a b : Point2) : Bool :=
  |a.x - b.x| ≤ EPSILON ∧ |a.y - b.y| ≤ EPSILON

/-- The exact value whose sign `robust::orient2d(a, b, c)` reports:
the determinant `|bx−ax  by−ay; cx−ax  cy−ay|` (twice the signed area). -/
def orient2d (a b c : Point2) : ℚ :=
  (b.x - a.x) * (c.y - a.y) - (b.y - a.y) * (c.x - a.x)

/-- `counter_clockwise` from `robust_float.rs`: `robust::orient2d(a,b,c) < 0`. -/
def counter_clockwise (a b c : Point2) : Bool :=
  orient2d a b c < 0

/-- The exact value whose sign `robust::incircle(a, b, c, d)` reports:
the 3×3 lifted in-circle determinant. -/
def incircleDet (a b c d : Point2) : ℚ :=
  let ax := a.x - d.x
  let ay := a.y - d.y
  let bx := b.x - d.x
  let by' := b.y - d.y
  let cx := c.x - d.x
  let cy := c.y - d.y
  let aq := ax * ax + ay * ay
  let bq := bx * bx + by' * by'
  let cq := cx * cx + cy * cy
  ax * (by' * cq - bq * cy) - ay * (bx * cq - bq * cx) + aq * (bx * cy - by' * cx)

/-- `in_circle` from `robust_float.rs`: `robust::incircle(a,b,c,d) < 0`. -/
def in_circle (a b c d : Point2) : Bool :=
  incircleDet a b c d < 0

/-! ### Sorting and deduplication (`robust_float.rs`) -/

/-- The total order computed by the comparator in `sort_points` on finite
coordinates: lexicographic by `x`, ties broken by `y`.  (The comparator's
`None` branch is reachable only for NaN coordinates; the non-finite case
is modelled separately below.) -/
def ple (a b : Point2) : Prop :=
  a.x < b.x ∨ (a.x = b.x ∧ a.y ≤ b.y)

instance : DecidableRel ple := fun a b => by
  unfold ple; infer_instance

instance : IsTotal Point2 ple := by
  constructor
  intro a b
  rcases lt_trichotomy a.x b.x with h | h | h
  · exact Or.inl (Or.inl h)
  · rcases le_total a.y b.y with h2 | h2
    · exact Or.inl (Or.inr ⟨h, h2⟩)
    · exact Or.inr (Or.inr ⟨h.symm, h2⟩)
  · exact Or.inr (Or.inl h)

instance : IsTrans Point2 ple := by
  constructor
  rintro a b c (h1 | ⟨h1, h1'⟩) (h2 | ⟨h2, h2'⟩)
  · exact Or.inl (h1.trans h2)
  · exact Or.inl (h2 ▸ h1)
  · exact Or.inl (h1 ▸ h2)
  · exact Or.inr ⟨h1.trans h2, h1'.trans h2'⟩

/-- `sort_points` from `robust_float.rs`.  Rust's stable `sort_by` with the
lexicographic comparator: since two points comparing `Equal` are identical
records, every sort produces the same list; insertion sort realises it. -/
def sort_points (points : List Point2) : List Point2 :=
  List.insertionSort ple points

/-- The `while idx < points.len() - 1` loop body of
`remove_near_equal_points`: if the two points at the cursor are nearly
equal, `points.remove(idx)` drops the first of the pair and the cursor
stays; otherwise the cursor advances. -/
def remove_loop : List Point2 → List Point2
  | [] => []
  | [p] => [p]
  | p :: q :: rest =>
    if nearly_equals p q then remove_loop (q :: rest)
    else p :: remove_loop (q :: rest)

/-- `remove_near_equal_points` from `robust_float.rs`.  On the empty
vector the loop bound `points.len() - 1` underflows `usize` (debug panic;
in release it wraps and `points[0]` then panics out of bounds), modelled
as an error. -/
def remove_near_equal_points (points : List Point2) : Except String (List Point2) :=
  if points.isEmpty then .error "attempt to subtract with overflow"
  else .ok (remove_loop points)

/-- `sanitize_points_vec` from `robust_float.rs`: sort, then deduplicate. -/
def sanitize_points_vec (points : List Point2) : Except String (List Point2) :=
  remove_near_equal_points (sort_points points)

/-! ### Non-finite coordinates (`f64` with NaN and infinities)

Claim C5 concerns inputs with NaN or infinite coordinates, so the pipeline
of `robust_float.rs` is also embedded over a model of `f64` that carries
the non-finite values.  Finite values are `ℚ` as above. -/

/-- A binary64 value: finite (modelled as `ℚ`), `+∞`, `−∞` or NaN.
(`-0.0 = 0.0` in `f64`, so a single zero loses nothing.) -/
inductive F64 where
  | fin (q : ℚ)
  | pinf
  | ninf
  | nan
deriving DecidableEq, Repr

/-- `f64::partial_cmp`: NaN is incomparable with everything (including
itself); the infinities are ordered with every non-NaN value. -/
def F64.pcmp : F64 → F64 → Option Ordering
  | .nan, _ => none
  | _, .nan => none
  | .fin a, .fin b => some (compare a b)
  | .fin _, .pinf => some .lt
  | .fin _, .ninf => some .gt
  | .pinf, .fin _ => some .gt
  | .pinf, .pinf => some .eq
  | .pinf, .ninf => some .gt
  | .ninf, .fin _ => some .lt
  | .ninf, .ninf => some .eq
  | .ninf, .pinf => some .lt

/-- `f64` subtraction on the model (IEEE-754: `∞ − ∞ = NaN`, NaN
propagates; on the finite values used below it is exact). -/
def F64.sub : F64 → F64 → F64
  | .nan, _ => .nan
  | _, .nan => .nan
  | .fin a, .fin b => .fin (a - b)
  | .fin _, .pinf => .ninf
  | .fin _, .ninf => .pinf
  | .pinf, .fin _ => .pinf
  | .pinf, .pinf => .nan
  | .pinf, .ninf => .pinf
  | .ninf, .fin _ => .ninf
  | .ninf, .ninf => .nan
  | .ninf, .pinf => .ninf

/-- `f64::abs` on the model. -/
def F64.fabs : F64 → F64
  | .nan => .nan
  | .pinf => .pinf
  | .ninf => .pinf
  | .fin a => .fin |a|

/-- `f64` `<=`: every comparison with NaN is false. -/
def F64.fle (a b : F64) : Bool :=
  match a.pcmp b with
  | some .lt => true
  | some .eq => true
  | _ => false

/-- `Point2` with possibly non-finite coordinates. -/
structure PointF where
  x : F64
  y : F64
deriving DecidableEq, Repr

/-- `nearly_equals` over the `F64` model. -/
def nearly_equalsF (a b : PointF) : Bool :=
  ((a.x.sub b.x).fabs.fle (.fin EPSILON)) && ((a.y.sub b.y).fabs.fle (.fin EPSILON))

/-- The comparator closure passed to `sort_by` in `sort_points`:
compare the `x`s; on `Equal` compare the `y`s; if the `x`s are
incomparable (NaN), fall back to comparing the `y`s and `unwrap` —
a panic exactly when that comparison is also `None`. -/
def sortCmpF (a b : PointF) : Except String Ordering :=
  match a.x.pcmp b.x with
  | some .eq =>
    match a.y.pcmp b.y with
    | some o => .ok o
    | none => .error "called Option::unwrap() on a None value"
  | some o => .ok o
  | none =>
    match a.y.pcmp b.y with
    | some o => .ok o
    | none => .error "called Option::unwrap() on a None value"

/-- Ordered insertion for the fallible comparator (a panic in the
comparator aborts the sort). -/
def orderedInsertF (a : PointF) : List PointF → Except String (List PointF)
  | [] => .ok [a]
  | b :: l => do
    let o ← sortCmpF a b
    if o = Ordering.gt then
      let r ← orderedInsertF a l
      return b :: r
    else
      return a :: b :: l

/-- `sort_points` over the `F64` model.  Rust's stable `sort_by` realised
as insertion sort; two points comparing `Equal` are identical records, so
whenever no comparison panics every comparison-sort returns this list. -/
def sort_pointsF : List PointF → Except String (List PointF)
  | [] => .ok []
  | a :: l => do
    let r ← sort_pointsF l
    orderedInsertF a r

/-- The deduplication loop over the `F64` model (same structure as
`remove_loop`). -/
def remove_loopF : List PointF → List PointF
  | [] => []
  | [p] => [p]
  | p :: q :: rest =>
    if nearly_equalsF p q then remove_loopF (q :: rest)
    else p :: remove_loopF (q :: rest)

/-- `remove_near_equal_points` over the `F64` model. -/
def remove_near_equal_pointsF (points : List PointF) : Except String (List PointF) :=
  if points.isEmpty then .error "attempt to subtract with overflow"
  else .ok (remove_loopF points)

/-- `sanitize_points_vec` over the `F64` model. -/
def sanitize_points_vecF (points : List PointF) : Except String (List PointF) := do
  let s ← sort_pointsF points
  remove_near_equal_pointsF s

/-! ### The quad-edge mesh (`edge.rs`)

`id_arena::Arena<QuadEdge>` is a growable vector addressed by allocation
index; it is modelled as a `List QuadEdge` whose positions are the
identifiers.  `EdgeRef.idx` is a `usize` that the source only ever
creates as a literal `0..3` or as `(idx + k) % 4` (the fields are
private to `edge.rs`), so it is modelled as `Fin 4` and the rotation
operators as addition in `Fin 4`. -/

/-- `EdgeRef` from `edge.rs`: one slot of one quad-edge. -/
structure EdgeRef where
  quad_edge : Nat
  idx : Fin 4
deriving DecidableEq, Repr

/-- `rot`: `(idx + 1) % 4`, same quad-edge. -/
def EdgeRef.rot (e : EdgeRef) : EdgeRef :=
  ⟨e.quad_edge, e.idx + 1⟩

/-- `sym`: `(idx + 2) % 4`, same quad-edge. -/
def EdgeRef.sym (e : EdgeRef) : EdgeRef :=
  ⟨e.quad_edge, e.idx + 2⟩

/-- `inv_rot`: `(idx + 3) % 4`, same quad-edge. -/
def EdgeRef.inv_rot (e : EdgeRef) : EdgeRef :=
  ⟨e.quad_edge, e.idx + 3⟩

/-- `Edge` from `edge.rs`: one directed-edge slot. -/
structure Edge where
  origin : Point2
  next : EdgeRef
deriving DecidableEq, Repr

/-- `QuadEdge` from `edge.rs`: the four slots and the deletion flag. -/
structure QuadEdge where
  e0 : Edge
  e1 : Edge
  e2 : Edge
  e3 : Edge
  deleted : Bool
deriving DecidableEq, Repr

/-- `quad.edges[idx]`. -/
def QuadEdge.get (q : QuadEdge) (i : Fin 4) : Edge :=
  match i with
  | ⟨0, _⟩ => q.e0
  | ⟨1, _⟩ => q.e1
  | ⟨2, _⟩ => q.e2
  | ⟨3, _⟩ => q.e3

/-- Write the `next` field of slot `i`. -/
def QuadEdge.setNext (q : QuadEdge) (i : Fin 4) (v : EdgeRef) : QuadEdge :=
  match i with
  | ⟨0, _⟩ => { q with e0 := { q.e0 with next := v } }
  | ⟨1, _⟩ => { q with e1 := { q.e1 with next := v } }
  | ⟨2, _⟩ => { q with e2 := { q.e2 with next := v } }
  | ⟨3, _⟩ => { q with e3 := { q.e3 with next := v } }

/-- Write the `origin` field of slot `i`. -/
def QuadEdge.setOrg (q : QuadEdge) (i : Fin 4) (p : Point2) : QuadEdge :=
  match i with
  | ⟨0, _⟩ => { q with e0 := { q.e0 with origin := p } }
  | ⟨1, _⟩ => { q with e1 := { q.e1 with origin := p } }
  | ⟨2, _⟩ => { q with e2 := { q.e2 with origin := p } }
  | ⟨3, _⟩ => { q with e3 := { q.e3 with origin := p } }

/-- The arena of quad-edges (`id_arena::Arena<QuadEdge>`). -/
abbrev Mesh : Type := List QuadEdge

/-- Junk quad-edge used to totalise arena lookup.  Rust's
`arena.get(id).unwrap()` panics for an id that was never allocated; every
dereference performed in the theorems below is in range, where the two
semantics agree. -/
def junkQuad : QuadEdge :=
  let z : Edge := { origin := ⟨0, 0⟩, next := ⟨0, 0⟩ }
  { e0 := z, e1 := z, e2 := z, e3 := z, deleted := false }

/-- Arena dereference `quad_arena.get(id).unwrap()`. -/
def getQuad (m : Mesh) (qi : Nat) : QuadEdge :=
  List.getD m qi junkQuad

/-- `EdgeRef::onext`: the stored `next` reference of the slot. -/
def onextM (m : Mesh) (e : EdgeRef) : EdgeRef :=
  ((getQuad m e.quad_edge).get e.idx).next

/-- `EdgeRef::org`: the stored `origin` of the slot. -/
def orgM (m : Mesh) (e : EdgeRef) : Point2 :=
  ((getQuad m e.quad_edge).get e.idx).origin

/-- `EdgeRef::dest = sym().org()`. -/
def destM (m : Mesh) (e : EdgeRef) : Point2 :=
  orgM m e.sym

/-- `EdgeRef::oprev = rot().onext().rot()`. -/
def oprevM (m : Mesh) (e : EdgeRef) : EdgeRef :=
  (onextM m e.rot).rot

/-- `EdgeRef::lnext = inv_rot().onext().rot()`. -/
def lnextM (m : Mesh) (e : EdgeRef) : EdgeRef :=
  (onextM m e.inv_rot).rot

/-- `EdgeRef::rprev = sym().onext()`. -/
def rprevM (m : Mesh) (e : EdgeRef) : EdgeRef :=
  onextM m e.sym

/-- `EdgeRef::set_onext` (a write to the arena; `List.set` out of range is
the identity, matching no theorem here: all writes below are in range). -/
def setOnextM (m : Mesh) (e : EdgeRef) (v : EdgeRef) : Mesh :=
  List.set m e.quad_edge ((getQuad m e.quad_edge).setNext e.idx v)

/-- `EdgeRef::set_org`. -/
def setOrgM (m : Mesh) (e : EdgeRef) (p : Point2) : Mesh :=
  List.set m e.quad_edge ((getQuad m e.quad_edge).setOrg e.idx p)

/-- `make_edge` from `edge.rs`: allocate a quad-edge whose slot `next`s
are `[ref0, ref3, ref2, ref1]`, all origins `Point2::default()`,
`deleted = false`; return the slot-0 reference. -/
def make_edge (m : Mesh) : Mesh × EdgeRef :=
  let qi := m.length
  let r0 : EdgeRef := ⟨qi, 0⟩
  let r1 : EdgeRef := ⟨qi, 1⟩
  let r2 : EdgeRef := ⟨qi, 2⟩
  let r3 : EdgeRef := ⟨qi, 3⟩
  let q : QuadEdge :=
    { e0 := { origin := ⟨0, 0⟩, next := r0 }
      e1 := { origin := ⟨0, 0⟩, next := r3 }
      e2 := { origin := ⟨0, 0⟩, next := r2 }
      e3 := { origin := ⟨0, 0⟩, next := r1 }
      deleted := false }
  (m ++ [q], r0)

/-- `splice` from `edge.rs`: read `alpha`, `beta` and the four `next`s,
then perform the four writes in source order. -/
def spliceM (m : Mesh) (a b : EdgeRef) : Mesh :=
  let alpha := (onextM m a).rot
  let beta := (onextM m b).rot
  let a_next := onextM m a
  let b_next := onextM m b
  let alpha_next := onextM m alpha
  let beta_next := onextM m beta
  let m1 := setOnextM m a b_next
  let m2 := setOnextM m1 b a_next
  let m3 := setOnextM m2 alpha beta_next
  setOnextM m3 beta alpha_next

/-! ### Instrumented execution state

The triangulator (`gns_delaunay.rs`) is embedded as explicit state
passing over `St`.  Besides the arena, `St` carries two *ghost* fields
that never influence control flow:

* `badNav` — set to `true` the first time any navigation or accessor
  (`onext`, `oprev`, `lnext`, `rprev`, `org`, `dest` — each is one or two
  arena reads through `raw_edge`) dereferences a quad-edge whose
  `deleted` flag is already set (claim C2);
* `rdel` — for every `delete_edge` performed inside the right-candidate
  refinement loop, the pair `(edge passed to delete_edge, current rcand)`
  (claim C1). -/

structure St where
  arena : Mesh
  badNav : Bool
  rdel : List (EdgeRef × EdgeRef)
deriving DecidableEq, Repr

/-- Initial state: empty arena, clean ghost fields. -/
def St.init : St := ⟨[], false, []⟩

/-- Is the quad-edge behind `e` already marked deleted? -/
def readDel (m : Mesh) (e : EdgeRef) : Bool :=
  (getQuad m e.quad_edge).deleted

/-- Instrumented `onext`: records a navigation through a deleted edge. -/
def onextS (s : St) (e : EdgeRef) : St × EdgeRef :=
  ({ s with badNav := s.badNav || readDel s.arena e }, onextM s.arena e)

/-- Instrumented `org`. -/
def orgS (s : St) (e : EdgeRef) : St × Point2 :=
  ({ s with badNav := s.badNav || readDel s.arena e }, orgM s.arena e)

/-- Instrumented `dest = sym().org()`. -/
def destS (s : St) (e : EdgeRef) : St × Point2 :=
  orgS s e.sym

/-- Instrumented `oprev = rot().onext().rot()`. -/
def oprevS (s : St) (e : EdgeRef) : St × EdgeRef :=
  let (s, n) := onextS s e.rot
  (s, n.rot)

/-- Instrumented `lnext = inv_rot().onext().rot()`. -/
def lnextS (s : St) (e : EdgeRef) : St × EdgeRef :=
  let (s, n) := onextS s e.inv_rot
  (s, n.rot)

/-- Instrumented `rprev = sym().onext()`. -/
def rprevS (s : St) (e : EdgeRef) : St × EdgeRef :=
  onextS s e.sym

/-- Uninstrumented writes (`set_onext` / `set_org` are not among the
navigations claim C2 lists). -/
def setOrgSt (s : St) (e : EdgeRef) (p : Point2) : St :=
  { s with arena := setOrgM s.arena e p }

/-- Instrumented `splice`: the four `onext` reads happen before the four
writes, exactly as in the source. -/
def spliceS (s : St) (a b : EdgeRef) : St :=
  let alpha := (onextM s.arena a).rot
  let beta := (onextM s.arena b).rot
  let bad := s.badNav || readDel s.arena a || readDel s.arena b ||
    readDel s.arena alpha || readDel s.arena beta
  { s with arena := spliceM s.arena a b, badNav := bad }

/-- Instrumented `make_edge`. -/
def make_edgeS (s : St) : St × EdgeRef :=
  let (m, e) := make_edge s.arena
  ({ s with arena := m }, e)

/-- `connect` from `edge.rs`: `make_edge`; `set_org(a.dest())`;
`set_dest(b.org())`; `splice(e, a.lnext())`; `splice(e.sym(), b)`. -/
def connectS (s : St) (a b : EdgeRef) : St × EdgeRef :=
  let (s, e) := make_edgeS s
  let (s, ad) := destS s a
  let s := setOrgSt s e ad
  let (s, bo) := orgS s b
  let s := setOrgSt s e.sym bo
  let (s, al) := lnextS s a
  let s := spliceS s e al
  let s := spliceS s e.sym b
  (s, e)

/-- Mark a quad-edge deleted (`quad_edge.deleted = true`). -/
def markDeleted (m : Mesh) (qi : Nat) : Mesh :=
  List.set m qi { getQuad m qi with deleted := true }

/-- `delete_edge` from `edge.rs`: `splice(e, e.oprev())`;
`splice(e.sym(), e.sym().oprev())` (the second `oprev` is computed on the
arena already modified by the first splice); mark deleted. -/
def delete_edgeS (s : St) (e : EdgeRef) : St :=
  let (s, p1) := oprevS s e
  let s := spliceS s e p1
  let (s, p2) := oprevS s e.sym
  let s := spliceS s e.sym p2
  { s with arena := markDeleted s.arena e.quad_edge }

/-! ### The Guibas–Stolfi triangulator (`gns_delaunay.rs`) -/

/-- Modelled from the spec: `left_of` is called by `compute_delaunay` but
its definition is not among the provided sources.  Spec §4.3.2:
`LeftOf(p, e) := orient2d(p, org(e), dest(e)) < 0`, i.e.
`counter_clockwise(p, org(e), dest(e))`. -/
def left_ofS (s : St) (p : Point2) (e : EdgeRef) : St × Bool :=
  let (s, o) := orgS s e
  let (s, d) := destS s e
  (s, counter_clockwise p o d)

/-- Modelled from the spec: `right_of` is called by `compute_delaunay` but
its definition is not among the provided sources.  Spec §4.3.2:
`RightOf(p, e) := orient2d(p, dest(e), org(e)) < 0`. -/
def right_ofS (s : St) (p : Point2) (e : EdgeRef) : St × Bool :=
  let (s, d) := destS s e
  let (s, o) := orgS s e
  (s, counter_clockwise p d o)

/-- Modelled from the spec: `valid` is called by `compute_delaunay` but
its definition is not among the provided sources.  Spec §4.3.2:
`Valid(e) := RightOf(dest(e), basel)`. -/
def validS (s : St) (e basel : EdgeRef) : St × Bool :=
  let (s, d) := destS s e
  right_ofS s d basel

/-- The lower-common-tangent search loop (`gns_delaunay.rs` lines 42-50),
with fuel for the unbounded `loop`. -/
def tangent_loop : Nat → St → EdgeRef → EdgeRef → St × EdgeRef × EdgeRef
  | 0, s, ldi, rdi => (s, ldi, rdi)
  | fuel + 1, s, ldi, rdi =>
    let (s, ro) := orgS s rdi
    let (s, b1) := left_ofS s ro ldi
    if b1 then
      let (s, l2) := lnextS s ldi
      tangent_loop fuel s l2 rdi
    else
      let (s, lo) := orgS s ldi
      let (s, b2) := right_ofS s lo rdi
      if b2 then
        let (s, r2) := rprevS s rdi
        tangent_loop fuel s ldi r2
      else (s, ldi, rdi)

/-- The left-candidate refinement `while` loop (`gns_delaunay.rs` lines
63-72): while the in-circle test holds, `t = lcand.onext()`;
`delete_edge(lcand)`; `lcand = t`. -/
def lcand_loop : Nat → St → EdgeRef → EdgeRef → St × EdgeRef
  | 0, s, _, lcand => (s, lcand)
  | fuel + 1, s, basel, lcand =>
    let (s, p1) := destS s basel
    let (s, p2) := orgS s basel
    let (s, p3) := destS s lcand
    let (s, ln) := onextS s lcand
    let (s, p4) := destS s ln
    if in_circle p1 p2 p3 p4 then
      let (s, t) := onextS s lcand
      let s := delete_edgeS s lcand
      lcand_loop fuel s basel t
    else (s, lcand)

/-- The right-candidate refinement `while` loop (`gns_delaunay.rs` lines
77-86).  While the in-circle test holds: `t = rcand.oprev()`; then line 84
executes `delete_edge(quad_arena, lcand)` — the *left* candidate is the
edge passed to `delete_edge` — and `rcand = t`.  The ghost trace `rdel`
records `(lcand, rcand)` at each such deletion. -/
def rcand_loop : Nat → St → EdgeRef → EdgeRef → EdgeRef → St × EdgeRef
  | 0, s, _, _, rcand => (s, rcand)
  | fuel + 1, s, basel, lcand, rcand =>
    let (s, p1) := destS s basel
    let (s, p2) := orgS s basel
    let (s, p3) := destS s rcand
    let (s, rp) := oprevS s rcand
    let (s, p4) := destS s rp
    if in_circle p1 p2 p3 p4 then
      let (s, t) := oprevS s rcand
      let s := { s with rdel := s.rdel ++ [(lcand, rcand)] }
      let s := delete_edgeS s lcand
      rcand_loop fuel s basel lcand t
    else (s, rcand)

/-- One pass of the merge `loop` (`gns_delaunay.rs` lines 60-106),
including the short-circuit evaluation of `&&` and `||` in the two exit /
branch conditions.  Returns when `!valid(lcand) && !valid(rcand)`. -/
def merge_loop : Nat → St → EdgeRef → St × EdgeRef
  | 0, s, basel => (s, basel)
  | fuel + 1, s, basel =>
    let (s, lc0) := onextS s basel.sym
    let (s, vl) := validS s lc0 basel
    let (s, lcand) := if vl then lcand_loop (fuel + 1) s basel lc0 else (s, lc0)
    let (s, rc0) := oprevS s basel
    let (s, vr) := validS s rc0 basel
    let (s, rcand) := if vr then rcand_loop (fuel + 1) s basel lcand rc0 else (s, rc0)
    let (s, vl2) := validS s lcand basel
    let (s, stop) :=
      if vl2 then (s, false)
      else
        let (s, vr2) := validS s rcand basel
        (s, !vr2)
    if stop then (s, basel)
    else
      let (s, vl3) := validS s lcand basel
      let (s, takeRight) :=
        if !vl3 then (s, true)
        else
          let (s, vr3) := validS s rcand basel
          if vr3 then
            let (s, q1) := destS s lcand
            let (s, q2) := orgS s lcand
            let (s, q3) := orgS s rcand
            let (s, q4) := destS s rcand
            (s, in_circle q1 q2 q3 q4)
          else (s, false)
      if takeRight then
        let (s, b2) := connectS s rcand basel.sym
        merge_loop fuel s b2
      else
        let (s, b2) := connectS s basel.sym lcand.sym
        merge_loop fuel s b2

/-- `compute_delaunay` from `gns_delaunay.rs`, fuelled for the unbounded
loops and the recursion.  `panic!("Not enough points in vec!")` is the
error for fewer than two points. -/
def compute_delaunay (fuel : Nat) (s : St) (points : List Point2) :
    St × Except String (EdgeRef × EdgeRef) :=
  if points.length < 2 then (s, .error "Not enough points in vec!")
    else
      match fuel with
      | 0 => (s, .error "fuel exhausted")
      | fuel + 1 =>
        if points.length = 2 then
          let (s, a) := make_edgeS s
          let s := setOrgSt s a (points.getD 0 ⟨0, 0⟩)
          let s := setOrgSt s a.sym (points.getD 1 ⟨0, 0⟩)
          (s, .ok (a, a.sym))
        else if points.length = 3 then
          let (s, a) := make_edgeS s
          let (s, b) := make_edgeS s
          let s := spliceS s a.sym b
          let p0 := points.getD 0 ⟨0, 0⟩
          let p1 := points.getD 1 ⟨0, 0⟩
          let p2 := points.getD 2 ⟨0, 0⟩
          let s := setOrgSt s a p0
          let s := setOrgSt s b p1
          let s := setOrgSt s a.sym p1
          let s := setOrgSt s b.sym p2
          if counter_clockwise p0 p1 p2 then
            let (s, _) := connectS s a b
            (s, .ok (a, b.sym))
          else if counter_clockwise p0 p2 p1 then
            let (s, c) := connectS s b a
            (s, .ok (c.sym, c))
          else (s, .ok (a, b.sym))
        else
          let half := points.length / 2
          let (s, r1) := compute_delaunay fuel s (points.take half)
          match r1 with
          | .error msg => (s, .error msg)
          | .ok (ldo0, ldi0) =>
            let (s, r2) := compute_delaunay fuel s (points.drop half)
            match r2 with
            | .error msg => (s, .error msg)
            | .ok (rdi0, rdo0) =>
              let (s, tl) := tangent_loop (fuel + 1) s ldi0 rdi0
              let ldi := tl.1
              let rdi := tl.2
              let (s, basel) := connectS s rdi.sym ldi
              let (s, lo1) := orgS s ldi
              let (s, lo2) := orgS s ldo0
              let ldo := if lo1 = lo2 then basel.sym else ldo0
              let (s, ro1) := orgS s rdi
              let (s, ro2) := orgS s rdo0
              let rdo := if ro1 = ro2 then basel else rdo0
              let (s, _) := merge_loop (fuel + 1) s basel
              (s, .ok (ldo, rdo))

/-- Modelled from the spec: `QuadEdge::get_points` is called by
`triangulate` but its definition is not among the provided sources.
Spec §4.3.3 (emission): walk every quad-edge and emit `(org, dest)` of
its primal slot 0; deleted edges are skipped. -/
def get_points (q : QuadEdge) : Option (Point2 × Point2) :=
  if q.deleted then none else some (q.e0.origin, q.e2.origin)

/-- `triangulate` from `gns_delaunay.rs`: sanitize, triangulate, emit. -/
def triangulate (fuel : Nat) (points : List Point2) :
    Except String (List (Point2 × Point2)) :=
  match sanitize_points_vec points with
  | .error msg => .error msg
  | .ok pts =>
    let (s, r) := compute_delaunay fuel St.init pts
    match r with
    | .error msg => .error msg
    | .ok _ => .ok (s.arena.filterMap get_points)

/-! ### Concrete data used by the theorems -/

/-- A five-point input (already sorted and duplicate-free).  Its left
half is the single edge `(0,0)–(3,2)`; its right half is the triangle
`(4,4),(5,0),(6,3)`.  Every circle through `(4,4)` and `(5,0)` contains
`(3,2)` or `(6,3)`, so the right-half edge `(4,4)–(5,0)` is not Delaunay
and the right-candidate refinement of the merge must fire on it. -/
def c1c2_input : List Point2 := [⟨0, 0⟩, ⟨3, 2⟩, ⟨4, 4⟩, ⟨5, 0⟩, ⟨6, 3⟩]

/-- No two adjacent points of the list are nearly equal. -/
def no_adjacent_near (l : List Point2) : Prop :=
  List.Chain' (fun a b => nearly_equals a b = false) l

instance (l : List Point2) : Decidable (no_adjacent_near l) :=
  inferInstanceAs (Decidable (List.Chain' (fun a b => nearly_equals a b = false) l))

instance {e a : Type} [DecidableEq e] [DecidableEq a] : DecidableEq (Except e a) :=
  fun x y =>
    match x, y with
    | .error u, .error v =>
      if h : u = v then isTrue (by rw [h]) else isFalse (by simp [h])
    | .error _, .ok _ => isFalse (by simp)
    | .ok _, .error _ => isFalse (by simp)
    | .ok u, .ok v =>
      if h : u = v then isTrue (by rw [h]) else isFalse (by simp [h])

/-! ## Theorems -/

/-! ### Helper lemmas about arena reads and writes -/

theorem getQuad_append (m : Mesh) (q : QuadEdge) :
    getQuad (m ++ [q]) m.length = q := by
  induction m with
  | nil => rfl
  | cons a t ih => simp [getQuad, List.getD]

theorem set_getQuad_self (m : Mesh) (i : Nat) :
    m.set i (getQuad m i) = m := by
  induction m generalizing i with
  | nil => rfl
  | cons a t ih =>
    cases i with
    | zero => rfl
    | succ n => simpa [getQuad, List.getD] using ih n

theorem setNext_get_self (q : QuadEdge) (i : Fin 4) :
    q.setNext i ((q.get i).next) = q := by
  fin_cases i <;> rfl

theorem setOnextM_self (m : Mesh) (e : EdgeRef) :
    setOnextM m e (onextM m e) = m := by
  unfold setOnextM onextM
  rw [setNext_get_self, set_getQuad_self]

theorem getQuad_set_eq (m : Mesh) (i : Nat) (q : QuadEdge) (h : i < m.length) :
    getQuad (m.set i q) i = q := by
  induction m generalizing i with
  | nil => simp at h
  | cons a t ih =>
    cases i with
    | zero => rfl
    | succ n => simpa [getQuad, List.getD] using ih n (by simpa using h)

theorem getQuad_set_ne (m : Mesh) (i j : Nat) (q : QuadEdge) (h : i ≠ j) :
    getQuad (m.set i q) j = getQuad m j := by
  induction m generalizing i j with
  | nil => rfl
  | cons a t ih =>
    cases i with
    | zero =>
      cases j with
      | zero => exact absurd rfl h
      | succ k => rfl
    | succ n =>
      cases j with
      | zero => rfl
      | succ k => simpa [getQuad, List.getD] using ih n k (by omega)

theorem get_setNext_eq (q : QuadEdge) (i : Fin 4) (v : EdgeRef) :
    ((q.setNext i v).get i).next = v := by
  fin_cases i <;> rfl

theorem get_setNext_ne (q : QuadEdge) (i j : Fin 4) (v : EdgeRef) (h : i ≠ j) :
    (q.setNext i v).get j = q.get j := by
  fin_cases i <;> fin_cases j <;> first | rfl | exact absurd rfl h

theorem length_setOnextM (m : Mesh) (e : EdgeRef) (v : EdgeRef) :
    (setOnextM m e v).length = m.length := by
  simp [setOnextM]

theorem onextM_setOnextM (m : Mesh) (e f : EdgeRef) (v : EdgeRef)
    (he : e.quad_edge < m.length) :
    onextM (setOnextM m e v) f = if f = e then v else onextM m f := by
  by_cases hq : f.quad_edge = e.quad_edge
  · by_cases hi : f.idx = e.idx
    · have hfe : f = e := by
        cases f; cases e; simp_all
      subst hfe
      simp [onextM, setOnextM, getQuad_set_eq _ _ _ (hq ▸ he), get_setNext_eq]
    · have hfe : f ≠ e := by
        intro hcon; exact hi (by rw [hcon])
      rw [if_neg hfe]
      unfold onextM setOnextM
      rw [hq, getQuad_set_eq _ _ _ he,
        get_setNext_ne _ _ _ _ (fun hcon => hi (by rw [hq] at *; exact hcon.symm ▸ rfl))]
  · have hfe : f ≠ e := by
      intro hcon; exact hq (by rw [hcon])
    rw [if_neg hfe]
    unfold onextM setOnextM
    rw [getQuad_set_ne _ _ _ _ (fun hcon => hq hcon.symm)]

/-! ### Claims C7, C8, C10 -/

/-- Claim C7: after `make_edge` returns the slot-0 reference `e0` of a
freshly allocated quad-edge with slots `e0..e3`, the stored `next`
references satisfy `e0.next = e0`, `e1.next = e3`, `e2.next = e2`,
`e3.next = e1`, the `deleted` flag is `false`, and all four origins are
the zero point `(0, 0)`. -/
theorem make_edge_initial_configuration (m : Mesh) :
    (make_edge m).2 = ⟨m.length, 0⟩ ∧
    onextM (make_edge m).1 ⟨m.length, 0⟩ = ⟨m.length, 0⟩ ∧
    onextM (make_edge m).1 ⟨m.length, 1⟩ = ⟨m.length, 3⟩ ∧
    onextM (make_edge m).1 ⟨m.length, 2⟩ = ⟨m.length, 2⟩ ∧
    onextM (make_edge m).1 ⟨m.length, 3⟩ = ⟨m.length, 1⟩ ∧
    (getQuad (make_edge m).1 m.length).deleted = false ∧
    (∀ i : Fin 4, orgM (make_edge m).1 ⟨m.length, i⟩ = ⟨0, 0⟩) := by
  refine ⟨rfl, ?_, ?_, ?_, ?_, ?_, ?_⟩ <;>
    simp only [make_edge, onextM, orgM, getQuad_append] <;>
    first
      | rfl
      | (intro i; fin_cases i <;> rfl)

/-- Claim C8: the pure rotation operators satisfy `sym (sym e) = e`,
`rot (rot (rot (rot e))) = e` and `rot (inv_rot e) = e`, acting only on
the slot index modulo 4 and leaving the quad-edge identifier unchanged. -/
theorem rotation_algebra (e : EdgeRef) :
    e.sym.sym = e ∧
    e.rot.rot.rot.rot = e ∧
    e.inv_rot.rot = e ∧
    e.rot.quad_edge = e.quad_edge ∧
    e.sym.quad_edge = e.quad_edge ∧
    e.inv_rot.quad_edge = e.quad_edge := by
  obtain ⟨q, i⟩ := e
  fin_cases i <;> exact ⟨rfl, rfl, rfl, rfl, rfl, rfl⟩

/-- `splice(a, a)` writes back, in sequence, the very values it read. -/
theorem spliceM_self (m : Mesh) (a : EdgeRef) : spliceM m a a = m := by
  show setOnextM (setOnextM (setOnextM (setOnextM m a (onextM m a)) a (onextM m a))
      ((onextM m a).rot) (onextM m ((onextM m a).rot)))
      ((onextM m a).rot) (onextM m ((onextM m a).rot)) = m
  rw [setOnextM_self, setOnextM_self, setOnextM_self, setOnextM_self]

/-- Claim C10: for every mesh state and every edge reference `a` that
resolves to a slot of the mesh, `splice(a, a)` is a no-op: with `b = a`
both swapped pairs coincide and all reads happen before any write, so
every `next` field of every quad-edge in the arena is unchanged. -/
theorem splice_self_noop (m : Mesh) (a : EdgeRef)
    (_resolves : a.quad_edge < m.length) : spliceM m a a = m :=
  spliceM_self m a

/-- Witness for C10 at a concrete one-quad-edge mesh. -/
theorem splice_self_noop_witness :
    (⟨0, 0⟩ : EdgeRef).quad_edge < (make_edge []).1.length ∧
    spliceM (make_edge []).1 ⟨0, 0⟩ ⟨0, 0⟩ = (make_edge []).1 :=
  ⟨by decide, splice_self_noop (make_edge []).1 ⟨0, 0⟩ (by decide)⟩

/-! ### Claim C6: Splice is an involution on independent arguments -/

/-- Characterisation of the four `next` writes of one `splice(a, b)`:
with `α = rot(onext(a))`, `β = rot(onext(b))`, the sequential writes are
`a ↦ onext(b)`, `b ↦ onext(a)`, `α ↦ onext(β)`, `β ↦ onext(α)` (a later
write to an aliased slot wins, hence the nesting order). -/
theorem onextM_spliceM (m : Mesh) (a b f : EdgeRef)
    (ha : a.quad_edge < m.length) (hb : b.quad_edge < m.length)
    (hra : (onextM m a).rot.quad_edge < m.length)
    (hrb : (onextM m b).rot.quad_edge < m.length) :
    onextM (spliceM m a b) f =
      if f = (onextM m b).rot then onextM m ((onextM m a).rot)
      else if f = (onextM m a).rot then onextM m ((onextM m b).rot)
      else if f = b then onextM m a
      else if f = a then onextM m b
      else onextM m f := by
  show onextM (setOnextM (setOnextM (setOnextM (setOnextM m a (onextM m b)) b (onextM m a))
      ((onextM m a).rot) (onextM m ((onextM m b).rot)))
      ((onextM m b).rot) (onextM m ((onextM m a).rot))) f = _
  rw [onextM_setOnextM _ _ _ _ (by simp only [length_setOnextM]; exact hrb)]
  by_cases h1 : f = (onextM m b).rot
  · rw [if_pos h1, if_pos h1]
  · rw [if_neg h1, if_neg h1,
      onextM_setOnextM _ _ _ _ (by simp only [length_setOnextM]; exact hra)]
    by_cases h2 : f = (onextM m a).rot
    · rw [if_pos h2, if_pos h2]
    · rw [if_neg h2, if_neg h2,
        onextM_setOnextM _ _ _ _ (by simp only [length_setOnextM]; exact hb)]
      by_cases h3 : f = b
      · rw [if_pos h3, if_pos h3]
      · rw [if_neg h3, if_neg h3, onextM_setOnextM _ _ _ _ ha]

/-- Claim C6: for every mesh state and independent edge references
`a, b` — no degenerate aliasing among `a`, `b`, `α = rot(onext(a))`,
`β = rot(onext(b))` — performing `splice(a, b)` twice in succession
restores every quad-edge's `next` field to its value before the first
splice. -/
theorem splice_involution (m : Mesh) (a b f : EdgeRef)
    (ha : a.quad_edge < m.length) (hb : b.quad_edge < m.length)
    (hra : (onextM m a).rot.quad_edge < m.length)
    (hrb : (onextM m b).rot.quad_edge < m.length)
    (hab : a ≠ b)
    (haα : a ≠ (onextM m a).rot) (haβ : a ≠ (onextM m b).rot)
    (hbα : b ≠ (onextM m a).rot) (hbβ : b ≠ (onextM m b).rot)
    (hαβ : (onextM m a).rot ≠ (onextM m b).rot) :
    onextM (spliceM (spliceM m a b) a b) f = onextM m f := by
  have hlen : (spliceM m a b).length = m.length := by
    show (setOnextM (setOnextM (setOnextM (setOnextM m a (onextM m b)) b (onextM m a))
        ((onextM m a).rot) (onextM m ((onextM m b).rot)))
        ((onextM m b).rot) (onextM m ((onextM m a).rot))).length = m.length
    simp only [length_setOnextM]
  have char1 : ∀ g, onextM (spliceM m a b) g =
      if g = (onextM m b).rot then onextM m ((onextM m a).rot)
      else if g = (onextM m a).rot then onextM m ((onextM m b).rot)
      else if g = b then onextM m a
      else if g = a then onextM m b
      else onextM m g := fun g => onextM_spliceM m a b g ha hb hra hrb
  have hm'a : onextM (spliceM m a b) a = onextM m b := by
    rw [char1 a, if_neg haβ, if_neg haα, if_neg hab, if_pos rfl]
  have hm'b : onextM (spliceM m a b) b = onextM m a := by
    rw [char1 b, if_neg hbβ, if_neg hbα, if_pos rfl]
  have hm'α : onextM (spliceM m a b) ((onextM m a).rot) = onextM m ((onextM m b).rot) := by
    rw [char1 _, if_neg hαβ, if_pos rfl]
  have hm'β : onextM (spliceM m a b) ((onextM m b).rot) = onextM m ((onextM m a).rot) := by
    rw [char1 _, if_pos rfl]
  have e1 : (onextM (spliceM m a b) a).rot = (onextM m b).rot := by rw [hm'a]
  have e2 : (onextM (spliceM m a b) b).rot = (onextM m a).rot := by rw [hm'b]
  rw [onextM_spliceM (spliceM m a b) a b f (hlen ▸ ha) (hlen ▸ hb)
    (by rw [e1, hlen]; exact hrb) (by rw [e2, hlen]; exact hra)]
  rw [e1, e2, hm'a, hm'b, hm'α, hm'β]
  split_ifs with h1 h2 h3 h4
  · rw [h1]
  · rw [h2]
  · rw [h3]
  · rw [h4]
  · rw [char1 f, if_neg h2, if_neg h1, if_neg h3, if_neg h4]

/-- Witness for C6 at a concrete two-quad-edge mesh. -/
theorem splice_involution_witness :
    ((⟨0, 0⟩ : EdgeRef).quad_edge < (make_edge (make_edge []).1).1.length ∧
      (⟨1, 0⟩ : EdgeRef).quad_edge < (make_edge (make_edge []).1).1.length ∧
      (onextM (make_edge (make_edge []).1).1 ⟨0, 0⟩).rot.quad_edge <
        (make_edge (make_edge []).1).1.length ∧
      (onextM (make_edge (make_edge []).1).1 ⟨1, 0⟩).rot.quad_edge <
        (make_edge (make_edge []).1).1.length ∧
      (⟨0, 0⟩ : EdgeRef) ≠ ⟨1, 0⟩ ∧
      (⟨0, 0⟩ : EdgeRef) ≠ (onextM (make_edge (make_edge []).1).1 ⟨0, 0⟩).rot ∧
      (⟨0, 0⟩ : EdgeRef) ≠ (onextM (make_edge (make_edge []).1).1 ⟨1, 0⟩).rot ∧
      (⟨1, 0⟩ : EdgeRef) ≠ (onextM (make_edge (make_edge []).1).1 ⟨0, 0⟩).rot ∧
      (⟨1, 0⟩ : EdgeRef) ≠ (onextM (make_edge (make_edge []).1).1 ⟨1, 0⟩).rot ∧
      (onextM (make_edge (make_edge []).1).1 ⟨0, 0⟩).rot ≠
        (onextM (make_edge (make_edge []).1).1 ⟨1, 0⟩).rot) ∧
    onextM (spliceM (spliceM (make_edge (make_edge []).1).1 ⟨0, 0⟩ ⟨1, 0⟩) ⟨0, 0⟩ ⟨1, 0⟩)
        ⟨0, 1⟩ =
      onextM (make_edge (make_edge []).1).1 ⟨0, 1⟩ :=
  ⟨⟨by decide, by decide, by decide, by decide, by decide, by decide, by decide,
      by decide, by decide, by decide⟩,
    splice_involution (make_edge (make_edge []).1).1 ⟨0, 0⟩ ⟨1, 0⟩ ⟨0, 1⟩
      (by decide) (by decide) (by decide) (by decide) (by decide)
      (by decide) (by decide) (by decide) (by decide) (by decide)⟩

/-! ### Claims C1 and C2: the merge loop deletes the wrong candidate -/

/-- Claim C1 (refuted; the code deletes `lcand`, not `rcand`): running
`compute_delaunay` on `c1c2_input`, the right-candidate refinement loop
fires exactly once, and the ghost trace shows that the edge passed to
`delete_edge` there was the left candidate `⟨quad 0, idx 2⟩` — the `sym`
of the left half's edge `(0,0)→(3,2)` — while `rcand` was `⟨quad 1, idx 0⟩`
(the right half's edge `(4,4)→(5,0)`), a different quad-edge; afterwards
the left candidate's quad-edge is marked deleted and `rcand`'s is not. -/
theorem rcand_branch_deletes_left_candidate :
    (compute_delaunay 40 St.init c1c2_input).1.rdel = [(⟨0, 2⟩, ⟨1, 0⟩)] ∧
    (⟨0, 2⟩ : EdgeRef).quad_edge ≠ (⟨1, 0⟩ : EdgeRef).quad_edge ∧
    readDel (compute_delaunay 40 St.init c1c2_input).1.arena ⟨0, 2⟩ = true ∧
    readDel (compute_delaunay 40 St.init c1c2_input).1.arena ⟨1, 0⟩ = false := by
  with_unfolding_all decide

/-- Claim C2 (refuted): on `c1c2_input` the triangulator navigates
through a deleted edge — after the right-candidate branch wrongly
deletes the left candidate, the very next `valid(lcand, basel)` reads
`dest(lcand)` from the already-deleted quad-edge, so the instrumented
run sets the `badNav` ghost flag. -/
theorem navigates_deleted_edge_on_concrete_input :
    (compute_delaunay 40 St.init c1c2_input).1.badNav = true := by
  with_unfolding_all decide

/-! ### Helper lemmas about the deduplication loop -/

theorem remove_loop_sublist : ∀ l : List Point2, List.Sublist (remove_loop l) l
  | [] => by simp [remove_loop]
  | [p] => by simp [remove_loop]
  | p :: q :: rest => by
    rw [remove_loop]
    split
    · exact List.Sublist.cons p (remove_loop_sublist (q :: rest))
    · exact List.Sublist.cons₂ p (remove_loop_sublist (q :: rest))

theorem remove_loop_ne_nil : ∀ l : List Point2, l ≠ [] → remove_loop l ≠ []
  | [], h => absurd rfl h
  | [p], _ => by simp [remove_loop]
  | p :: q :: rest, _ => by
    rw [remove_loop]
    split
    · exact remove_loop_ne_nil (q :: rest) (by simp)
    · simp

theorem remove_loop_eq_self : ∀ l : List Point2, no_adjacent_near l → remove_loop l = l
  | [], _ => rfl
  | [p], _ => rfl
  | p :: q :: rest, h => by
    have h1 : nearly_equals p q = false := (List.chain'_cons.mp h).1
    have h2 : no_adjacent_near (q :: rest) := (List.chain'_cons.mp h).2
    rw [remove_loop, if_neg (by simp [h1]), remove_loop_eq_self (q :: rest) h2]

/-! ### Claim C3: behaviour on inputs with fewer than two survivors -/

/-- Claim C3, counterexample for the empty vector: `triangulate []` does
fail with no mesh and no edges, but the failure comes from the `usize`
underflow of `points.len() - 1` inside `remove_near_equal_points`, not
from the `InsufficientPoints` panic `"Not enough points in vec!"`. -/
theorem triangulate_empty_fails_in_dedup :
    triangulate 7 [] = .error "attempt to subtract with overflow" ∧
    triangulate 7 [] ≠ .error "Not enough points in vec!" := by
  with_unfolding_all decide

/-- Claim C3 as amended: for every *nonempty* input vector in which fewer
than two points survive sanitize, `triangulate` signals the
`InsufficientPoints` condition (`panic!("Not enough points in vec!")`) as
a caller-visible failure; no mesh is produced and no edge is emitted. -/
theorem insufficient_points_failure (fuel : Nat) (points : List Point2)
    (hne : points ≠ [])
    (hlen : (remove_loop (sort_points points)).length < 2) :
    triangulate fuel points = .error "Not enough points in vec!" := by
  have hs : sort_points points ≠ [] := by
    intro h
    apply hne
    have hl := List.length_insertionSort ple points
    rw [show List.insertionSort ple points = sort_points points from rfl, h] at hl
    exact List.length_eq_zero.mp hl.symm
  have hempty : (sort_points points).isEmpty = false := by
    cases hsp : sort_points points with
    | nil => exact absurd hsp hs
    | cons a t => rfl
  unfold triangulate sanitize_points_vec remove_near_equal_points
  rw [hempty]
  show (match compute_delaunay fuel St.init (remove_loop (sort_points points)) with
    | (s, r) =>
      match r with
      | Except.error msg => Except.error msg
      | Except.ok _ => Except.ok (s.arena.filterMap get_points)) = _
  unfold compute_delaunay
  rw [if_pos hlen]

/-- Witness for the amended C3 at the one-point input `[(0, 0)]`. -/
theorem insufficient_points_failure_witness :
    ([(⟨0, 0⟩ : Point2)] ≠ [] ∧
      (remove_loop (sort_points [(⟨0, 0⟩ : Point2)])).length < 2) ∧
    triangulate 7 [(⟨0, 0⟩ : Point2)] = .error "Not enough points in vec!" :=
  ⟨⟨by decide, by with_unfolding_all decide⟩,
    insufficient_points_failure 7 [⟨0, 0⟩] (by decide) (by with_unfolding_all decide)⟩

/-! ### Claim C4: which of two nearly-equal points survives -/

theorem sort_points_pair (p q : Point2) (hle : ple p q) :
    sort_points [p, q] = [p, q] := by
  unfold sort_points
  simp [List.insertionSort, List.orderedInsert, if_pos hle]

theorem sort_points_triple (p q r : Point2) (hpq : ple p q) (hqr : ple q r) :
    sort_points [p, q, r] = [p, q, r] := by
  unfold sort_points
  simp [List.insertionSort, List.orderedInsert, if_pos hpq, if_pos hqr]

theorem sanitize_near_pair (p q : Point2)
    (hle : ple p q) (hnear : nearly_equals p q = true) :
    sanitize_points_vec [p, q] = .ok [q] := by
  unfold sanitize_points_vec remove_near_equal_points
  rw [sort_points_pair p q hle]
  show (if ([p, q] : List Point2).isEmpty = true then _ else _) = _
  rw [if_neg (by simp)]
  rw [remove_loop, if_pos hnear]
  rfl

/-- Claim C4, counterexample: for the sorted nearly-equal pair
`p = (0,0)`, `q = (2⁻⁵³, 0)` with `p ≠ q`, the sanitized result is `[q]` —
it contains the *later* point and not the earlier one, contradicting the
claim that `p` is kept and `q` dropped. -/
theorem dedup_keeps_later_counterexample :
    sanitize_points_vec [⟨0, 0⟩, ⟨1 / 2 ^ 53, 0⟩] = .ok [⟨1 / 2 ^ 53, 0⟩] ∧
    (⟨0, 0⟩ : Point2) ≠ ⟨1 / 2 ^ 53, 0⟩ ∧
    nearly_equals ⟨0, 0⟩ ⟨1 / 2 ^ 53, 0⟩ = true :=
  ⟨sanitize_near_pair ⟨0, 0⟩ ⟨1 / 2 ^ 53, 0⟩
      (by with_unfolding_all decide) (by with_unfolding_all decide),
    by with_unfolding_all decide,
    by with_unfolding_all decide⟩

/-- Claim C4 as amended: `points.remove(idx)` drops the *earlier* of two
nearly-equal consecutive points and keeps the later one; in particular,
for a sorted pair `(p, q)` with `p` nearly equal to `q`, the sanitized
result is `[q]`. -/
theorem dedup_drops_earlier_keeps_later (p q : Point2)
    (hle : ple p q) (hnear : nearly_equals p q = true) :
    sanitize_points_vec [p, q] = .ok [q] :=
  sanitize_near_pair p q hle hnear

/-- Witness for the amended C4 at `p = (0,0)`, `q = (2⁻⁵³, 0)`. -/
theorem dedup_drops_earlier_keeps_later_witness :
    (ple ⟨0, 0⟩ ⟨1 / 2 ^ 53, 0⟩ ∧
      nearly_equals ⟨0, 0⟩ ⟨1 / 2 ^ 53, 0⟩ = true) ∧
    sanitize_points_vec [⟨0, 0⟩, ⟨1 / 2 ^ 53, 0⟩] = .ok [⟨1 / 2 ^ 53, 0⟩] :=
  ⟨⟨by with_unfolding_all decide, by with_unfolding_all decide⟩,
    dedup_drops_earlier_keeps_later ⟨0, 0⟩ ⟨1 / 2 ^ 53, 0⟩
      (by with_unfolding_all decide) (by with_unfolding_all decide)⟩

/-! ### Claim C9: sanitize is not idempotent -/

/-- Claim C9, counterexample: with `ε = 2·f64::EPSILON`, the sorted input
`[(0,0), (0,2ε), (ε,ε)]` sanitizes to `[(0,0), (ε,ε)]` — the middle point
is dropped against its successor — but the two survivors are themselves
nearly equal, so a second sanitize drops another point:
`sanitize ∘ sanitize ≠ sanitize`. -/
theorem sanitize_not_idempotent :
    sanitize_points_vec [⟨0, 0⟩, ⟨0, 4 / 2 ^ 52⟩, ⟨2 / 2 ^ 52, 2 / 2 ^ 52⟩] =
      .ok [⟨0, 0⟩, ⟨2 / 2 ^ 52, 2 / 2 ^ 52⟩] ∧
    sanitize_points_vec [⟨0, 0⟩, ⟨2 / 2 ^ 52, 2 / 2 ^ 52⟩] =
      .ok [⟨2 / 2 ^ 52, 2 / 2 ^ 52⟩] := by
  constructor
  · have h12 : nearly_equals ⟨0, 0⟩ ⟨0, 4 / 2 ^ 52⟩ = false := by
      with_unfolding_all decide
    have h23 : nearly_equals ⟨0, 4 / 2 ^ 52⟩ ⟨2 / 2 ^ 52, 2 / 2 ^ 52⟩ = true := by
      with_unfolding_all decide
    unfold sanitize_points_vec remove_near_equal_points
    rw [sort_points_triple _ _ _ (by with_unfolding_all decide)
      (by with_unfolding_all decide)]
    show (if ([⟨0, 0⟩, ⟨0, 4 / 2 ^ 52⟩, ⟨2 / 2 ^ 52, 2 / 2 ^ 52⟩] :
        List Point2).isEmpty = true then _ else _) = _
    rw [if_neg (by simp)]
    rw [remove_loop, if_neg (by simp [h12]), remove_loop, if_pos h23]
    rfl
  · have h13 : nearly_equals ⟨0, 0⟩ ⟨2 / 2 ^ 52, 2 / 2 ^ 52⟩ = true := by
      with_unfolding_all decide
    exact sanitize_near_pair _ _ (by with_unfolding_all decide) h13

/-- Claim C9 as amended: one sanitize pass may leave adjacent nearly-equal
points (the deduplication cursor never re-examines a pair it has already
passed), so sanitize is idempotent only on inputs whose sanitized output
has no adjacent nearly-equal pair; on those, re-sorting is the identity
(the output is still sorted) and re-deduplication removes nothing. -/
theorem sanitize_idempotent_on_separated_output (L M : List Point2)
    (h : sanitize_points_vec L = .ok M) (hM : no_adjacent_near M) :
    sanitize_points_vec M = .ok M := by
  unfold sanitize_points_vec remove_near_equal_points at h
  by_cases he : (sort_points L).isEmpty
  · rw [if_pos he] at h
    exact absurd h (by simp)
  · rw [if_neg he] at h
    have hM_eq : M = remove_loop (sort_points L) := by
      cases h
      rfl
    have hsor : List.Sorted ple M := by
      rw [hM_eq]
      exact List.Pairwise.sublist (remove_loop_sublist _)
        (List.sorted_insertionSort ple L)
    have hMne : M ≠ [] := by
      rw [hM_eq]
      exact remove_loop_ne_nil _ (by simpa [List.isEmpty_iff] using he)
    have hMempty : M.isEmpty = false := by
      cases hM' : M with
      | nil => exact absurd hM' hMne
      | cons a t => rfl
    unfold sanitize_points_vec remove_near_equal_points sort_points
    rw [List.Sorted.insertionSort_eq hsor]
    rw [hMempty]
    show Except.ok (remove_loop M) = Except.ok M
    rw [remove_loop_eq_self M hM]

/-- Witness for the amended C9 at the well-separated input `[(0,0),(1,1)]`. -/
theorem sanitize_idempotent_on_separated_output_witness :
    (sanitize_points_vec [⟨0, 0⟩, ⟨1, 1⟩] = .ok [⟨0, 0⟩, ⟨1, 1⟩] ∧
      no_adjacent_near [⟨0, 0⟩, ⟨1, 1⟩]) ∧
    sanitize_points_vec [⟨0, 0⟩, ⟨1, 1⟩] = .ok [⟨0, 0⟩, ⟨1, 1⟩] :=
  ⟨⟨by with_unfolding_all decide,
      List.chain'_cons.mpr ⟨by with_unfolding_all decide, List.chain'_singleton _⟩⟩,
    sanitize_idempotent_on_separated_output [⟨0, 0⟩, ⟨1, 1⟩] [⟨0, 0⟩, ⟨1, 1⟩]
      (by with_unfolding_all decide)
      (List.chain'_cons.mpr ⟨by with_unfolding_all decide, List.chain'_singleton _⟩)⟩

/-! ### Claim C5: no validation of non-finite coordinates -/

/-- Claim C5, counterexample: the input `[(+∞, 0), (0, 0)]` contains a
non-finite coordinate, yet sanitize does not reject it — it is sorted
(infinities compare normally under `partial_cmp`) and deduplicated, and
the infinite point survives into the output. -/
theorem sanitize_accepts_infinite_coordinate :
    sanitize_points_vecF [⟨F64.pinf, .fin 0⟩, ⟨.fin 0, .fin 0⟩] =
      .ok [⟨.fin 0, .fin 0⟩, ⟨F64.pinf, .fin 0⟩] := by
  with_unfolding_all decide

/-- Claim C5 as amended: `sanitize_points_vec` performs no finiteness
validation and there is no `InvalidCoordinate` error.  Infinite
coordinates are sorted and deduplicated normally; a point whose `x`
comparison is incomparable (NaN) falls back to comparing `y` and is also
processed normally; only when the `y` comparison is *also* incomparable
does the comparator panic on `unwrap` — a panic, not a rejection at
entry. -/
theorem sanitize_no_finiteness_validation :
    sanitize_points_vecF [⟨F64.ninf, .fin 0⟩, ⟨.fin 0, .fin 0⟩] =
      .ok [⟨F64.ninf, .fin 0⟩, ⟨.fin 0, .fin 0⟩] ∧
    sanitize_points_vecF [⟨F64.nan, .fin 1⟩, ⟨.fin 0, .fin 0⟩] =
      .ok [⟨.fin 0, .fin 0⟩, ⟨F64.nan, .fin 1⟩] ∧
    sanitize_points_vecF [⟨F64.nan, .fin 1⟩, ⟨.fin 0, F64.nan⟩] =
      .error "called Option::unwrap() on a None value" := by
  with_unfolding_all decide

end Delaunay
